import Mathlib

/-!
Verification of the multiplayer state-synchronization core of the Plane
repository: the relay server (src/server.js) and the client reconciliation
layer (NetworkManager) together with the pooled projectile system
(AmmoSystem).  Numeric values are modelled as exact rationals; the
JSON transport is modelled by an explicit frame sum type, with a failed
parse represented as `none`.
-/

namespace Plane

/-- Three-component vector, as used for positions, rotations (Euler
angles) and velocities throughout the source. -/
structure Vec3 where
  x : ℚ
  y : ℚ
  z : ℚ
  deriving DecidableEq, Repr

/-- Componentwise vector addition (THREE.Vector3.add / addVectors). -/
def vadd (a b : Vec3) : Vec3 := ⟨a.x + b.x, a.y + b.y, a.z + b.z⟩

/-- Scalar multiple of a vector (THREE.Vector3.multiplyScalar). -/
def vscale (k : ℚ) (a : Vec3) : Vec3 := ⟨k * a.x, k * a.y, k * a.z⟩

/-- Squared euclidean distance between two points.  The source compares
`distanceTo` against nonnegative thresholds, which is equivalent to
comparing `dist2` against the squared threshold. -/
def dist2 (a b : Vec3) : ℚ :=
  (a.x - b.x) ^ 2 + (a.y - b.y) ^ 2 + (a.z - b.z) ^ 2

/-! ## Relay server (src/server.js) -/

/-- Server-side session record: the `clientData` object created in the
connection handler of src/server.js. -/
structure ClientData where
  id : ℕ
  position : Vec3
  rotation : Vec3
  speed : ℚ
  deriving DecidableEq, Repr

/-- One entry of the `clients` map: the websocket (identified here by the
id assigned at accept time, which is in bijection with the socket object)
together with its session record and its `readyState === OPEN` flag. -/
structure Conn where
  id : ℕ
  data : ClientData
  readyStateOpen : Bool
  deriving DecidableEq, Repr

/-- Whole-server state: the `clients` map (a JS Map preserves insertion
order, so a list) and the `nextId` counter. -/
structure ServerState where
  clients : List Conn
  nextId : ℕ
  deriving DecidableEq, Repr

/-- Initial server state: empty map, `nextId = 1`. -/
def initialServerState : ServerState := ⟨[], 1⟩

/-- Outbound server-to-client messages of src/server.js. -/
inductive ServerMsg where
  | init (id : ℕ)
  | players (players : List ClientData)
  | playerUpdate (id : ℕ) (position rotation : Vec3) (speed : ℚ)
  | playerFire (id : ℕ) (position direction velocity : Vec3)
  | playerDisconnect (id : ℕ)
  deriving DecidableEq, Repr

/-- Inbound client-to-server frames after JSON parsing.  `other` stands
for a well-formed JSON object whose `type` is neither `update` nor
`fire` (the if/else-if chain then does nothing). -/
inductive Frame where
  | update (position rotation : Vec3) (speed : ℚ)
  | fire (position direction velocity : Vec3)
  | other
  deriving DecidableEq, Repr

/-- Default session record created at accept time: spawn position
(0,10,0), zero rotation, zero speed. -/
def defaultClientData (cid : ℕ) : ClientData :=
  ⟨cid, ⟨0, 10, 0⟩, ⟨0, 0, 0⟩, 0⟩

/-- Connection handler of src/server.js: assign `nextId` (then increment
it), store a default session record, send `init` with the new id to the
new connection, then send it a `players` list of every other stored
record, skipping the `players` message when that list is empty.
Returns the new state, the assigned id, and the (recipient id, message)
pairs sent. -/
def acceptConnection (s : ServerState) :
    ServerState × ℕ × List (ℕ × ServerMsg) :=
  let cid := s.nextId
  let clients2 := s.clients ++ [⟨cid, defaultClientData cid, true⟩]
  let existing := (clients2.filter (fun c => c.id != cid)).map (fun c => c.data)
  let msgs :=
    (cid, ServerMsg.init cid) ::
      (if existing.length > 0 then [(cid, ServerMsg.players existing)] else [])
  (⟨clients2, cid + 1⟩, cid, msgs)

/-- Message handler of src/server.js.  A frame that failed to parse
(`none`, the catch branch) only logs: no state change, nothing sent.  An
`update` frame overwrites the sender session record in place and then
fans out a `playerUpdate` tagged with the sender id to every other
connection whose transport is open; a `fire` frame fans out a
`playerFire` the same way without touching the record. -/
def handleMessage (s : ServerState) (senderId : ℕ) (frame : Option Frame) :
    ServerState × List (ℕ × ServerMsg) :=
  match frame with
  | none => (s, [])
  | some (Frame.update pos rot sp) =>
    let clients2 := s.clients.map (fun c =>
      if c.id = senderId then
        { c with data := { c.data with position := pos, rotation := rot, speed := sp } }
      else c)
    let recipients := clients2.filter (fun c => c.id != senderId && c.readyStateOpen)
    (⟨clients2, s.nextId⟩,
      recipients.map (fun c => (c.id, ServerMsg.playerUpdate senderId pos rot sp)))
  | some (Frame.fire pos dir vel) =>
    let recipients := s.clients.filter (fun c => c.id != senderId && c.readyStateOpen)
    (s, recipients.map (fun c => (c.id, ServerMsg.playerFire senderId pos dir vel)))
  | some Frame.other => (s, [])

/-- Close handler of src/server.js: delete the closing connection from
the map, then send `playerDisconnect` with its id to every remaining
connection whose transport is open. -/
def handleClose (s : ServerState) (closedId : ℕ) :
    ServerState × List (ℕ × ServerMsg) :=
  let clients2 := s.clients.filter (fun c => c.id != closedId)
  (⟨clients2, s.nextId⟩,
    (clients2.filter (fun c => c.readyStateOpen)).map
      (fun c => (c.id, ServerMsg.playerDisconnect closedId)))

/-! ## Lifecycle traces (sequences of accepts and closes) -/

/-- A lifecycle event: a connection is accepted, or the connection
holding a given id closes. -/
inductive LifeEvent where
  | accept
  | close (id : ℕ)
  deriving DecidableEq, Repr

/-- One lifecycle step: the state transition and the messages sent. -/
def lifeStep (s : ServerState) : LifeEvent → ServerState × List (ℕ × ServerMsg)
  | LifeEvent.accept => ((acceptConnection s).1, (acceptConnection s).2.2)
  | LifeEvent.close cid => handleClose s cid

/-- Run a sequence of lifecycle events, concatenating all sent messages. -/
def runTrace (s : ServerState) : List LifeEvent → ServerState × List (ℕ × ServerMsg)
  | [] => (s, [])
  | e :: es =>
    ((runTrace (lifeStep s e).1 es).1, (lifeStep s e).2 ++ (runTrace (lifeStep s e).1 es).2)

/-- The identities assigned by the accepts of a trace, in acceptance order. -/
def assignedIds (s : ServerState) : List LifeEvent → List ℕ
  | [] => []
  | LifeEvent.accept :: es => s.nextId :: assignedIds (lifeStep s LifeEvent.accept).1 es
  | LifeEvent.close cid :: es => assignedIds (lifeStep s (LifeEvent.close cid)).1 es

/-- The ids currently stored in the registry. -/
def registryIds (s : ServerState) : List ℕ := s.clients.map (fun c => c.id)

/-- A trace is well formed from a state when every close names an id
currently in the registry (each socket close fires once, for a stored
socket). -/
def wfTraceB : ServerState → List LifeEvent → Bool
  | _, [] => true
  | s, LifeEvent.accept :: es => wfTraceB (lifeStep s LifeEvent.accept).1 es
  | s, LifeEvent.close cid :: es =>
    decide (cid ∈ registryIds s) && wfTraceB (lifeStep s (LifeEvent.close cid)).1 es

/-- Server-state invariant: registry ids are distinct, all below
`nextId`, and every stored transport is open (the source deletes a
connection from the map in the same handler that observes its close). -/
def ServerInv (s : ServerState) : Prop :=
  (registryIds s).Nodup ∧
    (∀ c ∈ s.clients, c.id < s.nextId) ∧ ∀ c ∈ s.clients, c.readyStateOpen = true

/-- Number of accepts in a trace. -/
def countAccepts (es : List LifeEvent) : ℕ :=
  (es.filter (fun e => match e with | LifeEvent.accept => true | _ => false)).length

/-- Number of closes in a trace. -/
def countCloses (es : List LifeEvent) : ℕ :=
  (es.filter (fun e => match e with | LifeEvent.close _ => true | _ => false)).length

/-- Recognizer for a `playerDisconnect` delivered to a given recipient id. -/
def isDisconnectTo (rid : ℕ) : ℕ × ServerMsg → Bool
  | (i, ServerMsg.playerDisconnect _) => i == rid
  | _ => false

/-- Number of `playerDisconnect` frames delivered to a given recipient. -/
def disconnectCount (out : List (ℕ × ServerMsg)) (rid : ℕ) : ℕ :=
  (out.filter (isDisconnectTo rid)).length

/-- Number of close events of a trace witnessed by the connection `rid`:
closes of a peer (an id other than `rid`) that happen while `rid` is in
the registry. -/
def witnessedCloses (s : ServerState) (rid : ℕ) : List LifeEvent → ℕ
  | [] => 0
  | LifeEvent.accept :: es => witnessedCloses (lifeStep s LifeEvent.accept).1 rid es
  | LifeEvent.close cid :: es =>
    (if rid ∈ registryIds s ∧ rid ≠ cid then 1 else 0) +
      witnessedCloses (lifeStep s (LifeEvent.close cid)).1 rid es

/-! ## AmmoSystem (pooled projectiles) -/

/-- One slot of the bullet pool: the fields of the pooled bullet objects
that carry simulation state (mesh visibility always equals `active`, so
it is not tracked separately). -/
structure Bullet where
  active : Bool
  creationTime : ℚ
  position : Vec3
  velocity : Vec3
  deriving DecidableEq, Repr

/-- State of one AmmoSystem instance.  The constants are per-instance
fields initialized in the constructor; `bulletPool` is the fixed array
of pooled slots and `bullets` holds the pool indices of the currently
active bullets, in activation order (the JS `bullets` array stores
references into the pool). -/
structure AmmoSystem where
  bulletSpeed : ℚ
  bulletLifetime : ℚ
  fireCooldown : ℚ
  lastFireTime : ℚ
  maxBullets : ℕ
  bulletPool : List Bullet
  bullets : List ℕ
  deriving DecidableEq, Repr

/-- A freshly pooled inactive bullet slot. -/
def inactiveBullet : Bullet := ⟨false, 0, ⟨0, 0, 0⟩, ⟨0, 0, 0⟩⟩

/-- AmmoSystem constructor values: bulletSpeed 1000, lifetime 2000 ms,
cooldown 80 ms, lastFireTime 0, pool of 200 inactive slots. -/
def freshAmmoSystem : AmmoSystem :=
  ⟨1000, 2000, 80, 0, 200, List.replicate 200 inactiveBullet, []⟩

/-- Map over a list with the element index, starting at a given index. -/
def mapWithIndexFrom (f : ℕ → α → β) : ℕ → List α → List β
  | _, [] => []
  | i, a :: as => f i a :: mapWithIndexFrom f (i + 1) as

/-- Map over a list with the element index. -/
def mapWithIndex (f : ℕ → α → β) (l : List α) : List β :=
  mapWithIndexFrom f 0 l

/-- Index of the first inactive slot of the pool, if any (the
`find` over the pool in AmmoSystem.createBullet). -/
def firstInactiveIdx : List Bullet → Option ℕ
  | [] => none
  | b :: bs => if b.active then (firstInactiveIdx bs).map (fun i => i + 1) else some 0

/-- AmmoSystem.createBullet: take the first inactive slot of the pool
(if every slot is active, warn and return without spawning), activate it
at the given position with velocity `direction * bulletSpeed +
planeVelocity`, stamp the creation time, and append it to the active
list. -/
def createBullet (a : AmmoSystem) (now : ℚ)
    (position direction planeVelocity : Vec3) : AmmoSystem :=
  match firstInactiveIdx a.bulletPool with
  | none => a
  | some i =>
    let b : Bullet :=
      ⟨true, now, position, vadd (vscale a.bulletSpeed direction) planeVelocity⟩
    { a with bulletPool := a.bulletPool.set i b, bullets := a.bullets ++ [i] }

/-- AmmoSystem.fireBullets: gated by the fire cooldown (a call earlier
than `fireCooldown` after the last successful fire returns with no state
change); otherwise stamp `lastFireTime` and create one bullet per wing.
The wing spawn points and forward direction are computed in the source
from the plane world matrix (a quaternion decomposition followed by a
floating-point normalization); they enter this model as inputs. -/
def fireBullets (a : AmmoSystem) (now : ℚ)
    (leftWingPos rightWingPos bulletDirection planeVelocity : Vec3) : AmmoSystem :=
  if now - a.lastFireTime < a.fireCooldown then a
  else
    let a1 := { a with lastFireTime := now }
    let a2 := createBullet a1 now leftWingPos bulletDirection planeVelocity
    createBullet a2 now rightWingPos bulletDirection planeVelocity

/-- NetworkManager.fireBulletsWithoutSound: identical cooldown gate,
timestamp write and two createBullet calls on the given AmmoSystem; the
only difference from AmmoSystem.fireBullets in the source is that no
sound event is emitted, which is outside this model. -/
def fireBulletsWithoutSound (a : AmmoSystem) (now : ℚ)
    (leftWingPos rightWingPos bulletDirection planeVelocity : Vec3) : AmmoSystem :=
  if now - a.lastFireTime < a.fireCooldown then a
  else
    let a1 := { a with lastFireTime := now }
    let a2 := createBullet a1 now leftWingPos bulletDirection planeVelocity
    createBullet a2 now rightWingPos bulletDirection planeVelocity

/-- The per-slot movement step of AmmoSystem.update: a slot referenced
by the active list advances by `velocity * dt`. -/
def moveActive (bullets : List ℕ) (dt : ℚ) : ℕ → Bullet → Bullet := fun i b =>
  if bullets.contains i then
    { b with position := vadd b.position (vscale dt b.velocity) }
  else b

/-- The expiry test of AmmoSystem.update on the moved pool: a slot is
expired when its age exceeds the bullet lifetime. -/
def expiredAt (lifetime now : ℚ) (moved : List Bullet) (i : ℕ) : Bool :=
  match moved[i]? with
  | some b => decide (now - b.creationTime > lifetime)
  | none => false

/-- AmmoSystem.update: move every active bullet by `velocity * dt`,
then deactivate (and drop from the active list) every bullet whose age
exceeds `bulletLifetime`. -/
def ammoUpdate (a : AmmoSystem) (now dt : ℚ) : AmmoSystem :=
  let moved := mapWithIndex (moveActive a.bullets dt) a.bulletPool
  let pool2 := mapWithIndex
    (fun i b =>
      if a.bullets.contains i && expiredAt a.bulletLifetime now moved i then
        { b with active := false }
      else b)
    moved
  { a with
    bulletPool := pool2
    bullets := a.bullets.filter (fun i => !(expiredAt a.bulletLifetime now moved i)) }

/-- Number of active bullets in the pool. -/
def activeBulletCount (a : AmmoSystem) : ℕ :=
  (a.bulletPool.filter (fun b => b.active)).length

/-! ## NetworkManager (client reconciliation layer) -/

/-- Client-side remote entity: the remote plane proxy.  `position` and
`rotation` are the mesh transform (the only pose the source keeps; no
separate target pose is stored), `speed` drives the propeller, and
`ammo` is the optional per-plane AmmoSystem. -/
structure RemotePlane where
  position : Vec3
  rotation : Vec3
  speed : ℚ
  ammo : Option AmmoSystem
  deriving DecidableEq, Repr

/-- NetworkManager state: the local client id received via `init` and
the `remotePlanes` map from client id to remote plane. -/
structure NetworkManagerState where
  clientId : Option ℕ
  remotePlanes : List (ℕ × RemotePlane)
  deriving DecidableEq, Repr

/-- The fixed interpolation factor of NetworkManager (0.1). -/
def interpolationFactor : ℚ := 1 / 10

/-- Map.get on the remotePlanes association list. -/
def lookupRP : List (ℕ × RemotePlane) → ℕ → Option RemotePlane
  | [], _ => none
  | p :: ps, i => if p.1 = i then some p.2 else lookupRP ps i

/-- Map.set on the remotePlanes association list for a key already
present (keys are unique, as Map.set keeps one entry per key). -/
def setRP : List (ℕ × RemotePlane) → ℕ → RemotePlane → List (ℕ × RemotePlane)
  | [], _, _ => []
  | p :: ps, i, rp => if p.1 = i then (i, rp) :: setRP ps i rp else p :: setRP ps i rp

/-- Remote plane lookup on the manager state. -/
def lookupRemote (st : NetworkManagerState) (i : ℕ) : Option RemotePlane :=
  lookupRP st.remotePlanes i

/-- Remote plane overwrite on the manager state. -/
def setRemote (st : NetworkManagerState) (i : ℕ) (rp : RemotePlane) :
    NetworkManagerState :=
  { st with remotePlanes := setRP st.remotePlanes i rp }

/-- Scalar exponential blend, THREE lerp semantics:
`x += (target - x) * alpha`. -/
def lerp (f a b : ℚ) : ℚ := a + (b - a) * f

/-- Componentwise blend: THREE.Vector3.lerp for positions, and the
per-axis `rotation.c += (target.c - rotation.c) * factor` updates for
rotations, which compute the same function. -/
def vlerp (f : ℚ) (a b : Vec3) : Vec3 :=
  ⟨lerp f a.x b.x, lerp f a.y b.y, lerp f a.z b.z⟩

/-- Initial scalar speed of a freshly constructed enemy plane: the base
Plane constructor sets maxSpeed to 3.5 and the EnemyPlane constructor
then sets speed to maxSpeed * 0.55, giving 1.925. -/
def enemyPlaneInitialSpeed : ℚ := (35 / 10) * (55 / 100)

/-- NetworkManager.createRemotePlane: skip when the id is the local
client or a plane already exists for it; otherwise create an enemy
plane, set its mesh position and rotation from the player data, and
store it.  The speed field is not taken from the player data, so the
new plane keeps the EnemyPlane constructor speed, and the constructor
also attaches a fresh AmmoSystem. -/
def createRemotePlane (st : NetworkManagerState) (i : ℕ) (pos rot : Vec3) :
    NetworkManagerState :=
  if st.clientId = some i then st
  else if (lookupRemote st i).isSome then st
  else
    { st with
      remotePlanes :=
        st.remotePlanes ++ [(i, ⟨pos, rot, enemyPlaneInitialSpeed, some freshAmmoSystem⟩)] }

/-- NetworkManager.updateRemotePlayer: when no plane exists for the id,
create one from the message data (the source guard that the player
plane and scene exist always holds in a running game).  When one
exists, immediately blend its mesh position and rotation one
`interpolationFactor` step toward the received values and store the
received speed; no target pose is kept for later ticks. -/
def updateRemotePlayer (st : NetworkManagerState) (i : ℕ)
    (pos rot : Vec3) (sp : ℚ) : NetworkManagerState :=
  match lookupRemote st i with
  | none => createRemotePlane st i pos rot
  | some rp =>
    setRemote st i
      { rp with
        position := vlerp interpolationFactor rp.position pos
        rotation := vlerp interpolationFactor rp.rotation rot
        speed := sp }

/-- NetworkManager.handleRemoteFire: drop the message when its id is the
local client id; drop it when no remote plane exists for the id (early
return).  Otherwise snap the plane to the reported fire position when it
has drifted more than 20 units (squared distance over 400), ensure an
AmmoSystem exists (creating a fresh one when missing), and fire a bullet
pair through fireBulletsWithoutSound.  The message direction field is
parsed by the source but not used for spawning (the wing geometry inputs
come from the plane transform and enter this model as parameters). -/
def handleRemoteFire (st : NetworkManagerState) (msgId : ℕ)
    (position velocity : Vec3) (now : ℚ)
    (leftWingPos rightWingPos bulletDirection : Vec3) : NetworkManagerState :=
  if st.clientId = some msgId then st
  else
    match lookupRemote st msgId with
    | none => st
    | some rp =>
      let rp1 := if dist2 position rp.position > 400 then { rp with position := position } else rp
      let ammo0 := rp1.ammo.getD freshAmmoSystem
      let ammo1 :=
        fireBulletsWithoutSound ammo0 now leftWingPos rightWingPos bulletDirection velocity
      setRemote st msgId { rp1 with ammo := some ammo1 }

/-- NetworkManager.update: for every remote plane, advance cosmetic
animation and step its AmmoSystem with the hardcoded dt of 0.016; the
mesh position and rotation of the remote planes are not touched (the
throttled sendUpdate of the local state does not affect remote planes
and is outside this model). -/
def networkUpdate (st : NetworkManagerState) (now : ℚ) : NetworkManagerState :=
  { st with
    remotePlanes := st.remotePlanes.map (fun p =>
      (p.1, { p.2 with ammo := p.2.ammo.map (fun a => ammoUpdate a now (16 / 1000)) })) }

/-! ## Theorems -/

theorem lifeStep_nextId_accept (s : ServerState) :
    (lifeStep s LifeEvent.accept).1.nextId = s.nextId + 1 := rfl

theorem lifeStep_nextId_close (s : ServerState) (cid : ℕ) :
    (lifeStep s (LifeEvent.close cid)).1.nextId = s.nextId := rfl

theorem mem_assignedIds_ge (es : List LifeEvent) :
    ∀ s : ServerState, ∀ i ∈ assignedIds s es, s.nextId ≤ i := by
  induction es with
  | nil => intro s i h; simp [assignedIds] at h
  | cons e es ih =>
    intro s i h
    cases e with
    | accept =>
      rw [show assignedIds s (LifeEvent.accept :: es)
            = s.nextId :: assignedIds (lifeStep s LifeEvent.accept).1 es from rfl] at h
      rcases List.mem_cons.mp h with rfl | h2
      · exact le_refl _
      · have := ih (lifeStep s LifeEvent.accept).1 i h2
        rw [lifeStep_nextId_accept] at this
        omega
    | close cid =>
      rw [show assignedIds s (LifeEvent.close cid :: es)
            = assignedIds (lifeStep s (LifeEvent.close cid)).1 es from rfl] at h
      have := ih (lifeStep s (LifeEvent.close cid)).1 i h
      rwa [lifeStep_nextId_close] at this

/-- C3: over any sequence of lifecycle events, the identities assigned
by the accepts are strictly increasing in acceptance order, and no
identity is ever assigned twice, even after the connection holding it
disconnects. -/
theorem c3_identities_strictly_increasing (s : ServerState) (es : List LifeEvent) :
    (assignedIds s es).Pairwise (· < ·) ∧ (assignedIds s es).Nodup := by
  have main : ∀ es : List LifeEvent, ∀ s : ServerState,
      (assignedIds s es).Pairwise (· < ·) := by
    intro es
    induction es with
    | nil => intro s; simp [assignedIds]
    | cons e es ih =>
      intro s
      cases e with
      | accept =>
        rw [show assignedIds s (LifeEvent.accept :: es)
              = s.nextId :: assignedIds (lifeStep s LifeEvent.accept).1 es from rfl]
        refine List.Pairwise.cons ?_ (ih _)
        intro i hi
        have := mem_assignedIds_ge es (lifeStep s LifeEvent.accept).1 i hi
        rw [lifeStep_nextId_accept] at this
        omega
      | close cid =>
        rw [show assignedIds s (LifeEvent.close cid :: es)
              = assignedIds (lifeStep s (LifeEvent.close cid)).1 es from rfl]
        exact ih _
  exact ⟨main es s, (main es s).imp fun h => ne_of_lt h⟩

/-- C6: a frame that fails to parse is a no-op: the server state (every
session record and the registry) is unchanged, nothing is sent to any
peer, and the sending connection is not removed. -/
theorem c6_parse_failure_noop (s : ServerState) (senderId : ℕ) :
    handleMessage s senderId none = (s, []) := rfl

/-- C4: accepting a connection assigns the current counter value as
identity, appends a default session record with spawn position (0,10,0),
zero rotation and zero speed, sends the new connection an init message
with its identity, and then a players message listing the records of all
other connections, skipped entirely when there are none. -/
theorem c4_accept_connection (s : ServerState)
    (h : ∀ c ∈ s.clients, c.id < s.nextId) :
    (acceptConnection s).2.1 = s.nextId ∧
    (acceptConnection s).1.clients
      = s.clients ++ [(⟨s.nextId, defaultClientData s.nextId, true⟩ : Conn)] ∧
    (acceptConnection s).1.nextId = s.nextId + 1 ∧
    defaultClientData s.nextId = ⟨s.nextId, ⟨0, 10, 0⟩, ⟨0, 0, 0⟩, 0⟩ ∧
    (acceptConnection s).2.2
      = (s.nextId, ServerMsg.init s.nextId) ::
          (if s.clients = [] then []
           else [(s.nextId, ServerMsg.players (s.clients.map (fun c => c.data)))]) := by
  have hfilter :
      ((s.clients ++ [(⟨s.nextId, defaultClientData s.nextId, true⟩ : Conn)]).filter
          (fun c => c.id != s.nextId)) = s.clients := by
    rw [List.filter_append]
    have h1 : s.clients.filter (fun c => c.id != s.nextId) = s.clients := by
      apply List.filter_eq_self.mpr
      intro c hc
      have := h c hc
      simp only [bne_iff_ne, ne_eq, decide_not, decide_eq_true_eq]
      omega
    have h2 : ([(⟨s.nextId, defaultClientData s.nextId, true⟩ : Conn)].filter
        (fun c => c.id != s.nextId)) = [] := by simp
    rw [h1, h2, List.append_nil]
  refine ⟨rfl, rfl, rfl, rfl, ?_⟩
  simp only [acceptConnection]
  rw [hfilter]
  rcases eq_or_ne s.clients [] with he | he
  · simp [he]
  · simp [he, List.length_pos.mpr he]

/-- C4 witness: a second connection accepted after one existing client
gets id 2, an init message, and a players message listing the first
client. -/
theorem c4_accept_connection_witness :
    (acceptConnection ⟨[⟨1, defaultClientData 1, true⟩], 2⟩).2.1 = 2 ∧
    (acceptConnection ⟨[⟨1, defaultClientData 1, true⟩], 2⟩).2.2
      = [(2, ServerMsg.init 2), (2, ServerMsg.players [defaultClientData 1])] := by
  have h := c4_accept_connection ⟨[⟨1, defaultClientData 1, true⟩], 2⟩ (by decide)
  exact ⟨h.1, by rw [h.2.2.2.2]; decide⟩

/-- C1: on a valid update frame the server overwrites the sender session
record fields with the frame values, keeps every other record untouched,
delivers a playerUpdate tagged with the sender identity to every other
currently open connection, and every delivered copy goes to a recipient
other than the sender. -/
theorem c1_update_overwrite_and_broadcast (s : ServerState) (senderId : ℕ)
    (pos rot : Vec3) (sp : ℚ) :
    (∀ c ∈ (handleMessage s senderId (some (Frame.update pos rot sp))).1.clients,
        c.id = senderId →
          c.data.position = pos ∧ c.data.rotation = rot ∧ c.data.speed = sp) ∧
    (∀ c ∈ (handleMessage s senderId (some (Frame.update pos rot sp))).1.clients,
        c.id ≠ senderId → c ∈ s.clients) ∧
    (∀ c ∈ s.clients, c.id ≠ senderId → c.readyStateOpen = true →
        (c.id, ServerMsg.playerUpdate senderId pos rot sp)
          ∈ (handleMessage s senderId (some (Frame.update pos rot sp))).2) ∧
    (∀ m ∈ (handleMessage s senderId (some (Frame.update pos rot sp))).2,
        m.1 ≠ senderId ∧ m.2 = ServerMsg.playerUpdate senderId pos rot sp) := by
  refine ⟨?_, ?_, ?_, ?_⟩
  · intro c hc hid
    simp only [handleMessage, List.mem_map] at hc
    obtain ⟨c0, hc0, rfl⟩ := hc
    by_cases h0 : c0.id = senderId
    · simp [h0]
    · simp only [if_neg h0] at hid ⊢
      exact absurd hid h0
  · intro c hc hid
    simp only [handleMessage, List.mem_map] at hc
    obtain ⟨c0, hc0, rfl⟩ := hc
    by_cases h0 : c0.id = senderId
    · simp only [if_pos h0] at hid
      exact absurd h0 hid
    · simpa [if_neg h0] using hc0
  · intro c hc hid hopen
    simp only [handleMessage, List.mem_map]
    refine ⟨c, ?_, rfl⟩
    rw [List.mem_filter]
    constructor
    · rw [List.mem_map]
      exact ⟨c, hc, by simp [if_neg hid]⟩
    · simp [bne_iff_ne, hid, hopen]
  · intro m hm
    simp only [handleMessage, List.mem_map] at hm
    obtain ⟨c0, hc0, rfl⟩ := hm
    rw [List.mem_filter] at hc0
    have := hc0.2
    simp only [Bool.and_eq_true, bne_iff_ne, ne_eq] at this
    exact ⟨this.1, rfl⟩

/-- C1 witness: with two open connections 1 and 2, an update from 1
reaches 2 (and only 2), and the record of 1 now holds the new values. -/
theorem c1_update_overwrite_and_broadcast_witness :
    (2, ServerMsg.playerUpdate 1 ⟨3, 4, 5⟩ ⟨0, 0, 0⟩ 7)
      ∈ (handleMessage ⟨[⟨1, defaultClientData 1, true⟩, ⟨2, defaultClientData 2, true⟩], 3⟩
          1 (some (Frame.update ⟨3, 4, 5⟩ ⟨0, 0, 0⟩ 7))).2 :=
  (c1_update_overwrite_and_broadcast
      ⟨[⟨1, defaultClientData 1, true⟩, ⟨2, defaultClientData 2, true⟩], 3⟩
      1 ⟨3, 4, 5⟩ ⟨0, 0, 0⟩ 7).2.2.1
    ⟨2, defaultClientData 2, true⟩ (by decide) (by decide) rfl

theorem serverInv_initial : ServerInv initialServerState := by
  refine ⟨?_, ?_, ?_⟩ <;> simp [initialServerState, registryIds]

theorem serverInv_lifeStep (s : ServerState) (e : LifeEvent) (h : ServerInv s) :
    ServerInv (lifeStep s e).1 := by
  obtain ⟨hnd, hlt, hop⟩ := h
  cases e with
  | accept =>
    refine ⟨?_, ?_, ?_⟩
    · show ((s.clients ++ [(⟨s.nextId, defaultClientData s.nextId, true⟩ : Conn)]).map
          (fun c => c.id)).Nodup
      rw [List.map_append, List.nodup_append]
      refine ⟨hnd, by simp, ?_⟩
      intro a ha hb
      simp only [List.map_cons, List.map_nil, List.mem_singleton] at hb
      subst hb
      rw [List.mem_map] at ha
      obtain ⟨c, hc, hcid⟩ := ha
      have := hlt c hc
      omega
    · intro c hc
      show c.id < s.nextId + 1
      rcases List.mem_append.mp hc with h1 | h1
      · have := hlt c h1; omega
      · simp only [List.mem_singleton] at h1
        subst h1
        simp
    · intro c hc
      rcases List.mem_append.mp hc with h1 | h1
      · exact hop c h1
      · simp only [List.mem_singleton] at h1; subst h1; rfl
  | close cid =>
    refine ⟨?_, ?_, ?_⟩
    · show ((s.clients.filter (fun c => c.id != cid)).map (fun c => c.id)).Nodup
      exact hnd.sublist ((List.filter_sublist _).map _)
    · intro c hc
      exact hlt c (List.mem_of_mem_filter hc)
    · intro c hc
      exact hop c (List.mem_of_mem_filter hc)

theorem length_filter_ne_of_mem : ∀ (l : List Conn) (cid : ℕ),
    (l.map (fun c => c.id)).Nodup → cid ∈ l.map (fun c => c.id) →
    (l.filter (fun c => c.id != cid)).length + 1 = l.length := by
  intro l
  induction l with
  | nil => intro cid _ hm; simp at hm
  | cons c ls ih =>
    intro cid hnd hm
    rw [List.map_cons, List.nodup_cons] at hnd
    rw [List.map_cons, List.mem_cons] at hm
    by_cases h : c.id = cid
    · have hrest : ls.filter (fun x => x.id != cid) = ls := by
        apply List.filter_eq_self.mpr
        intro x hx
        have hne : x.id ≠ cid := by
          intro e
          apply hnd.1
          rw [List.mem_map]
          exact ⟨x, hx, by rw [e, h]⟩
        simpa [bne_iff_ne] using hne
      rw [List.filter_cons, if_neg (by simp [h]), hrest]
      simp
    · have hm2 : cid ∈ ls.map (fun c => c.id) := by
        rcases hm with h1 | h1
        · exact absurd h1.symm h
        · exact h1
      have hrec := ih cid hnd.2 hm2
      rw [List.filter_cons, if_pos (by simp [bne_iff_ne, h])]
      simp only [List.length_cons]
      omega

theorem length_filter_id_eq : ∀ (l : List Conn) (rid : ℕ),
    (l.map (fun c => c.id)).Nodup →
    (l.filter (fun c => c.id == rid)).length
      = if rid ∈ l.map (fun c => c.id) then 1 else 0 := by
  intro l
  induction l with
  | nil => intro rid _; simp
  | cons c ls ih =>
    intro rid hnd
    rw [List.map_cons, List.nodup_cons] at hnd
    by_cases h : c.id = rid
    · have hnot : rid ∉ ls.map (fun c => c.id) := by rw [← h]; exact hnd.1
      rw [List.filter_cons, if_pos (by simp [h]), List.map_cons,
        if_pos (List.mem_cons.mpr (Or.inl h.symm))]
      simp only [List.length_cons]
      rw [ih rid hnd.2, if_neg hnot]
    · rw [List.filter_cons, if_neg (by simp [h]), List.map_cons, ih rid hnd.2]
      by_cases hm : rid ∈ ls.map (fun c => c.id)
      · rw [if_pos hm, if_pos (List.mem_cons.mpr (Or.inr hm))]
      · have hno : rid ∉ c.id :: ls.map (fun c => c.id) := by
          intro hx
          rcases List.mem_cons.mp hx with h1 | h1
          · exact h h1.symm
          · exact hm h1
        rw [if_neg hm, if_neg hno]

theorem disconnectCount_append (a b : List (ℕ × ServerMsg)) (rid : ℕ) :
    disconnectCount (a ++ b) rid = disconnectCount a rid + disconnectCount b rid := by
  simp [disconnectCount, List.filter_append]

theorem disconnectCount_map_disconnect : ∀ (l : List Conn) (cid rid : ℕ),
    disconnectCount (l.map (fun c => (c.id, ServerMsg.playerDisconnect cid))) rid
      = (l.filter (fun c => c.id == rid)).length := by
  intro l
  induction l with
  | nil => intro cid rid; simp [disconnectCount]
  | cons c ls ih =>
    intro cid rid
    rw [List.map_cons]
    show (List.filter (isDisconnectTo rid)
        ((c.id, ServerMsg.playerDisconnect cid) :: ls.map (fun c => (c.id, ServerMsg.playerDisconnect cid)))).length = _
    rw [List.filter_cons, List.filter_cons]
    by_cases h : c.id = rid
    · rw [if_pos (by simp [isDisconnectTo, h]), if_pos (by simp [h])]
      simp only [List.length_cons]
      exact congrArg (fun n => n + 1) (ih cid rid)
    · rw [if_neg (by simp [isDisconnectTo, h]), if_neg (by simp [h])]
      exact ih cid rid

theorem disconnectCount_handleClose (s : ServerState) (cid rid : ℕ)
    (hnd : (registryIds s).Nodup)
    (hop : ∀ c ∈ s.clients, c.readyStateOpen = true) :
    disconnectCount (handleClose s cid).2 rid
      = if rid ∈ registryIds s ∧ rid ≠ cid then 1 else 0 := by
  have hopen : (s.clients.filter (fun c => c.id != cid)).filter
      (fun c => c.readyStateOpen) = s.clients.filter (fun c => c.id != cid) := by
    apply List.filter_eq_self.mpr
    intro c hc
    simp [hop c (List.mem_of_mem_filter hc)]
  show disconnectCount
      (((s.clients.filter (fun c => c.id != cid)).filter (fun c => c.readyStateOpen)).map
        (fun c => (c.id, ServerMsg.playerDisconnect cid))) rid = _
  rw [hopen, disconnectCount_map_disconnect]
  have hnd2 : ((s.clients.filter (fun c => c.id != cid)).map (fun c => c.id)).Nodup :=
    hnd.sublist ((List.filter_sublist _).map _)
  rw [length_filter_id_eq _ rid hnd2]
  have hmem : (rid ∈ (s.clients.filter (fun c => c.id != cid)).map (fun c => c.id))
      ↔ (rid ∈ registryIds s ∧ rid ≠ cid) := by
    constructor
    · intro hx
      rw [List.mem_map] at hx
      obtain ⟨c, hc, rfl⟩ := hx
      rw [List.mem_filter] at hc
      refine ⟨List.mem_map.mpr ⟨c, hc.1, rfl⟩, ?_⟩
      have := hc.2
      simpa [bne_iff_ne] using this
    · rintro ⟨hx, hne⟩
      rw [registryIds, List.mem_map] at hx
      obtain ⟨c, hc, rfl⟩ := hx
      rw [List.mem_map]
      refine ⟨c, ?_, rfl⟩
      rw [List.mem_filter]
      exact ⟨hc, by simpa [bne_iff_ne] using hne⟩
  by_cases hc : rid ∈ registryIds s ∧ rid ≠ cid
  · rw [if_pos (hmem.mpr hc), if_pos hc]
  · rw [if_neg (fun hx => hc (hmem.mp hx)), if_neg hc]

theorem disconnectCount_accept (s : ServerState) (rid : ℕ) :
    disconnectCount (lifeStep s LifeEvent.accept).2 rid = 0 := by
  simp only [lifeStep, acceptConnection, disconnectCount]
  rw [List.filter_cons, if_neg (by simp [isDisconnectTo])]
  split
  · rw [List.filter_cons, if_neg (by simp [isDisconnectTo]), List.filter_nil]
    rfl
  · rw [List.filter_nil]
    rfl

/-- C5: over any well-formed sequence of accepts and closes, the
registry size changes by plus one per accept and minus one per close
(so it equals the number of still-open connections when starting from
the empty registry), and every connection receives exactly one
playerDisconnect per peer close it witnesses: its playerDisconnect
count equals the number of closes of other ids that happened while it
was in the registry. -/
theorem c5_close_cleanup_and_fanout : ∀ (es : List LifeEvent) (s : ServerState) (rid : ℕ),
    ServerInv s → wfTraceB s es = true →
    ((runTrace s es).1.clients.length + countCloses es
        = s.clients.length + countAccepts es) ∧
    disconnectCount (runTrace s es).2 rid = witnessedCloses s rid es := by
  intro es
  induction es with
  | nil =>
    intro s rid hinv hwf
    exact ⟨by simp [runTrace, countCloses, countAccepts],
      by simp [runTrace, disconnectCount, witnessedCloses]⟩
  | cons e es ih =>
    intro s rid hinv hwf
    cases e with
    | accept =>
      have hwf2 : wfTraceB (lifeStep s LifeEvent.accept).1 es = true := hwf
      have hinv2 := serverInv_lifeStep s LifeEvent.accept hinv
      obtain ⟨ihlen, ihcnt⟩ := ih (lifeStep s LifeEvent.accept).1 rid hinv2 hwf2
      constructor
      · have hlen2 : (lifeStep s LifeEvent.accept).1.clients.length
            = s.clients.length + 1 := by
          show (s.clients ++ [(⟨s.nextId, defaultClientData s.nextId, true⟩ : Conn)]).length = _
          simp
        have h1 : (runTrace s (LifeEvent.accept :: es)).1
            = (runTrace (lifeStep s LifeEvent.accept).1 es).1 := rfl
        have hca : countAccepts (LifeEvent.accept :: es) = countAccepts es + 1 := by
          simp [countAccepts, List.filter_cons]
        have hcc : countCloses (LifeEvent.accept :: es) = countCloses es := by
          simp [countCloses, List.filter_cons]
        rw [h1, hca, hcc]
        omega
      · have h2 : (runTrace s (LifeEvent.accept :: es)).2
            = (lifeStep s LifeEvent.accept).2
              ++ (runTrace (lifeStep s LifeEvent.accept).1 es).2 := rfl
        rw [h2, disconnectCount_append, disconnectCount_accept, ihcnt, Nat.zero_add]
        rfl
    | close cid =>
      rw [show wfTraceB s (LifeEvent.close cid :: es)
            = (decide (cid ∈ registryIds s)
                && wfTraceB (lifeStep s (LifeEvent.close cid)).1 es) from rfl,
        Bool.and_eq_true] at hwf
      have hmem : cid ∈ registryIds s := of_decide_eq_true hwf.1
      have hinv2 := serverInv_lifeStep s (LifeEvent.close cid) hinv
      obtain ⟨ihlen, ihcnt⟩ := ih (lifeStep s (LifeEvent.close cid)).1 rid hinv2 hwf.2
      constructor
      · have hlen2 : (lifeStep s (LifeEvent.close cid)).1.clients.length + 1
            = s.clients.length := by
          show (s.clients.filter (fun c => c.id != cid)).length + 1 = _
          exact length_filter_ne_of_mem s.clients cid hinv.1 hmem
        have h1 : (runTrace s (LifeEvent.close cid :: es)).1
            = (runTrace (lifeStep s (LifeEvent.close cid)).1 es).1 := rfl
        have hca : countAccepts (LifeEvent.close cid :: es) = countAccepts es := by
          simp [countAccepts, List.filter_cons]
        have hcc : countCloses (LifeEvent.close cid :: es) = countCloses es + 1 := by
          simp [countCloses, List.filter_cons]
        rw [h1, hca, hcc]
        omega
      · have h2 : (runTrace s (LifeEvent.close cid :: es)).2
            = (lifeStep s (LifeEvent.close cid)).2
              ++ (runTrace (lifeStep s (LifeEvent.close cid)).1 es).2 := rfl
        rw [h2, disconnectCount_append, ihcnt]
        have h3 : (lifeStep s (LifeEvent.close cid)).2 = (handleClose s cid).2 := rfl
        rw [h3, disconnectCount_handleClose s cid rid hinv.1 hinv.2.2]
        rfl

/-- C5 witness: two accepts then a close of id 1, observed by id 2:
the final registry holds one client and client 2 received exactly one
playerDisconnect. -/
theorem c5_close_cleanup_and_fanout_witness :
    ((runTrace initialServerState
          [LifeEvent.accept, LifeEvent.accept, LifeEvent.close 1]).1.clients.length
        + countCloses [LifeEvent.accept, LifeEvent.accept, LifeEvent.close 1]
      = initialServerState.clients.length
        + countAccepts [LifeEvent.accept, LifeEvent.accept, LifeEvent.close 1]) ∧
    disconnectCount
        (runTrace initialServerState
          [LifeEvent.accept, LifeEvent.accept, LifeEvent.close 1]).2 2
      = witnessedCloses initialServerState 2
          [LifeEvent.accept, LifeEvent.accept, LifeEvent.close 1] :=
  c5_close_cleanup_and_fanout
    [LifeEvent.accept, LifeEvent.accept, LifeEvent.close 1]
    initialServerState 2 serverInv_initial (by decide)

theorem lookupRP_setRP_self : ∀ (l : List (ℕ × RemotePlane)) (i : ℕ)
    (rp rp0 : RemotePlane), lookupRP l i = some rp0 →
    lookupRP (setRP l i rp) i = some rp := by
  intro l
  induction l with
  | nil => intro i rp rp0 h; simp [lookupRP] at h
  | cons p ps ih =>
    intro i rp rp0 h
    by_cases hp : p.1 = i
    · rw [setRP, if_pos hp, lookupRP, if_pos rfl]
    · rw [lookupRP, if_neg hp] at h
      rw [setRP, if_neg hp, lookupRP, if_neg hp]
      exact ih i rp rp0 h

theorem lookupRP_append_single : ∀ (l : List (ℕ × RemotePlane)) (i : ℕ)
    (rp : RemotePlane), lookupRP l i = none →
    lookupRP (l ++ [(i, rp)]) i = some rp := by
  intro l
  induction l with
  | nil => intro i rp _; simp [lookupRP]
  | cons p ps ih =>
    intro i rp h
    by_cases hp : p.1 = i
    · rw [lookupRP, if_pos hp] at h
      exact absurd h (by simp)
    · rw [lookupRP, if_neg hp] at h
      rw [List.cons_append, lookupRP, if_neg hp]
      exact ih i rp h

/-- C2 counterexample: for a remote plane at the origin, a playerUpdate
with position (10,0,0) moves the current mesh position to (1,0,0) inside
the message handler itself, so the current pose is not left unchanged by
the handler. -/
theorem c2_counterexample :
    (lookupRemote ⟨some 1, [(2, ⟨⟨0, 0, 0⟩, ⟨0, 0, 0⟩, 0, none⟩)]⟩ 2).map
        (fun rp => rp.position) = some ⟨0, 0, 0⟩ ∧
    (lookupRemote
        (updateRemotePlayer ⟨some 1, [(2, ⟨⟨0, 0, 0⟩, ⟨0, 0, 0⟩, 0, none⟩)]⟩
          2 ⟨10, 0, 0⟩ ⟨0, 0, 0⟩ 5) 2).map (fun rp => rp.position)
      = some ⟨1, 0, 0⟩ ∧
    (⟨1, 0, 0⟩ : Vec3) ≠ ⟨0, 0, 0⟩ := by
  refine ⟨rfl, ?_, by decide⟩
  show (lookupRemote (setRemote _ 2 _) 2).map (fun rp => rp.position) = _
  rw [show lookupRemote (setRemote ⟨some 1, [(2, ⟨⟨0, 0, 0⟩, ⟨0, 0, 0⟩, 0, none⟩)]⟩ 2
        ⟨vlerp interpolationFactor ⟨0, 0, 0⟩ ⟨10, 0, 0⟩,
         vlerp interpolationFactor ⟨0, 0, 0⟩ ⟨0, 0, 0⟩, 5, none⟩) 2
      = some ⟨vlerp interpolationFactor ⟨0, 0, 0⟩ ⟨10, 0, 0⟩,
              vlerp interpolationFactor ⟨0, 0, 0⟩ ⟨0, 0, 0⟩, 5, none⟩ from rfl]
  show some (vlerp interpolationFactor ⟨0, 0, 0⟩ ⟨10, 0, 0⟩) = some (⟨1, 0, 0⟩ : Vec3)
  congr 1
  simp only [vlerp, lerp, interpolationFactor]
  congr 1 <;> norm_num

/-- C2 as amended: a playerUpdate naming an identity with no Remote
Entity (and different from the local identity) creates one seeded at the
given position and rotation, keeping the EnemyPlane constructor speed
(the message speed is not applied on creation); a playerUpdate naming an
existing Remote Entity immediately blends the current position and
rotation a fixed fraction 0.1 toward the given values inside the message
handler (no separate target pose is stored) and sets the speed to the
given value, while the per-frame NetworkManager update never changes
remote poses. -/
theorem c2_update_remote_player (st : NetworkManagerState) (i : ℕ)
    (pos rot : Vec3) (sp : ℚ) (now : ℚ) :
    (lookupRemote st i = none → st.clientId ≠ some i →
        lookupRemote (updateRemotePlayer st i pos rot sp) i
          = some ⟨pos, rot, enemyPlaneInitialSpeed, some freshAmmoSystem⟩) ∧
    (∀ rp, lookupRemote st i = some rp →
        lookupRemote (updateRemotePlayer st i pos rot sp) i
          = some ⟨vlerp interpolationFactor rp.position pos,
                  vlerp interpolationFactor rp.rotation rot, sp, rp.ammo⟩) ∧
    (networkUpdate st now).remotePlanes.map (fun p => (p.1, p.2.position, p.2.rotation))
      = st.remotePlanes.map (fun p => (p.1, p.2.position, p.2.rotation)) := by
  refine ⟨?_, ?_, ?_⟩
  · intro hnone hcid
    rw [updateRemotePlayer]
    rw [hnone]
    rw [createRemotePlane, if_neg hcid, if_neg (by rw [hnone]; simp)]
    exact lookupRP_append_single st.remotePlanes i _ hnone
  · intro rp hsome
    rw [updateRemotePlayer, hsome]
    exact lookupRP_setRP_self st.remotePlanes i _ rp hsome
  · rw [networkUpdate]
    simp [List.map_map]

/-- C2 witness: creation seeded at the given position when the identity
is unknown, and the immediate fractional blend when it is known. -/
theorem c2_update_remote_player_witness :
    lookupRemote
        (updateRemotePlayer ⟨some 1, [(2, ⟨⟨0, 0, 0⟩, ⟨0, 0, 0⟩, 0, none⟩)]⟩
          2 ⟨10, 0, 0⟩ ⟨4, 0, 0⟩ 5) 2
      = some ⟨vlerp interpolationFactor ⟨0, 0, 0⟩ ⟨10, 0, 0⟩,
              vlerp interpolationFactor ⟨0, 0, 0⟩ ⟨4, 0, 0⟩, 5, none⟩ :=
  (c2_update_remote_player ⟨some 1, [(2, ⟨⟨0, 0, 0⟩, ⟨0, 0, 0⟩, 0, none⟩)]⟩
      2 ⟨10, 0, 0⟩ ⟨4, 0, 0⟩ 5 0).2.1 ⟨⟨0, 0, 0⟩, ⟨0, 0, 0⟩, 0, none⟩ rfl

/-- C7 counterexample: with local identity 1, no Remote Entity for
identity 2, a playerFire from identity 2 leaves the state unchanged: no
Remote Entity is created, contrary to the claim. -/
theorem c7_counterexample :
    lookupRemote (⟨some 1, []⟩ : NetworkManagerState) 2 = none ∧
    (⟨some 1, []⟩ : NetworkManagerState).clientId ≠ some 2 ∧
    handleRemoteFire ⟨some 1, []⟩ 2 ⟨0, 0, 0⟩ ⟨0, 0, 0⟩ 0 ⟨0, 0, 0⟩ ⟨0, 0, 0⟩ ⟨0, 0, 1⟩
      = ⟨some 1, []⟩ ∧
    lookupRemote
        (handleRemoteFire ⟨some 1, []⟩ 2 ⟨0, 0, 0⟩ ⟨0, 0, 0⟩ 0
          ⟨0, 0, 0⟩ ⟨0, 0, 0⟩ ⟨0, 0, 1⟩) 2 = none := by
  refine ⟨rfl, by decide, ?_, ?_⟩ <;>
    rw [handleRemoteFire, if_neg (by decide)] <;> rfl

/-- C7 as amended: a playerFire whose identity equals the local identity
is ignored; a playerFire naming an identity with no Remote Entity is
dropped entirely (no entity is created and nothing is spawned); a
playerFire naming an existing Remote Entity spawns a bullet pair through
fireBulletsWithoutSound on that entity, snapping its position to the
reported fire position when it drifted more than 20 units away. -/
theorem c7_remote_fire (st : NetworkManagerState) (msgId : ℕ)
    (position velocity : Vec3) (now : ℚ) (lw rw bd : Vec3) :
    (st.clientId = some msgId →
        handleRemoteFire st msgId position velocity now lw rw bd = st) ∧
    (lookupRemote st msgId = none →
        handleRemoteFire st msgId position velocity now lw rw bd = st) ∧
    (∀ rp, lookupRemote st msgId = some rp → st.clientId ≠ some msgId →
        lookupRemote (handleRemoteFire st msgId position velocity now lw rw bd) msgId
          = some
            { position := if dist2 position rp.position > 400 then position else rp.position
              rotation := rp.rotation
              speed := rp.speed
              ammo := some (fireBulletsWithoutSound (rp.ammo.getD freshAmmoSystem)
                  now lw rw bd velocity) }) := by
  refine ⟨?_, ?_, ?_⟩
  · intro h
    rw [handleRemoteFire, if_pos h]
  · intro h
    rw [handleRemoteFire]
    split
    · rfl
    · rw [h]
  · intro rp hsome hcid
    rw [handleRemoteFire, if_neg hcid, hsome]
    by_cases hd : dist2 position rp.position > 400
    · rw [if_pos hd]
      simp only [if_pos hd]
      exact lookupRP_setRP_self st.remotePlanes msgId _ rp hsome
    · rw [if_neg hd]
      simp only [if_neg hd]
      exact lookupRP_setRP_self st.remotePlanes msgId _ rp hsome

/-- C7 witness: a playerFire for an unknown identity 2 with local
identity 1 leaves the manager state unchanged. -/
theorem c7_remote_fire_witness :
    handleRemoteFire ⟨some 1, []⟩ 2 ⟨0, 0, 0⟩ ⟨0, 0, 0⟩ 0 ⟨5, 0, 0⟩ ⟨0, 5, 0⟩ ⟨0, 0, 1⟩
      = ⟨some 1, []⟩ :=
  (c7_remote_fire ⟨some 1, []⟩ 2 ⟨0, 0, 0⟩ ⟨0, 0, 0⟩ 0 ⟨5, 0, 0⟩ ⟨0, 5, 0⟩ ⟨0, 0, 1⟩).2.1 rfl

theorem dist2_pos_of_ne (a b : Vec3) (h : a ≠ b) : 0 < dist2 a b := by
  have hcoord : a.x ≠ b.x ∨ a.y ≠ b.y ∨ a.z ≠ b.z := by
    by_contra hall
    push_neg at hall
    obtain ⟨hx, hy, hz⟩ := hall
    apply h
    cases a; cases b
    simp_all
  have key : ∀ u v w : ℚ, u ≠ 0 → 0 < u ^ 2 + v ^ 2 + w ^ 2 := by
    intro u v w hu
    have h1 : 0 < u ^ 2 := lt_of_le_of_ne (sq_nonneg u) (Ne.symm (pow_ne_zero 2 hu))
    nlinarith [sq_nonneg v, sq_nonneg w]
  rcases hcoord with hc | hc | hc
  · have := key (a.x - b.x) (a.y - b.y) (a.z - b.z) (sub_ne_zero.mpr hc)
    unfold dist2
    linarith
  · have := key (a.y - b.y) (a.x - b.x) (a.z - b.z) (sub_ne_zero.mpr hc)
    unfold dist2
    linarith
  · have := key (a.z - b.z) (a.x - b.x) (a.y - b.y) (sub_ne_zero.mpr hc)
    unfold dist2
    linarith

theorem dist2_vlerp_interpolation (c t : Vec3) :
    dist2 (vlerp interpolationFactor c t) t = (81 / 100) * dist2 c t := by
  simp only [dist2, vlerp, lerp, interpolationFactor]
  ring

theorem lerp_between (a b : ℚ) :
    min a b ≤ lerp interpolationFactor a b ∧ lerp interpolationFactor a b ≤ max a b := by
  simp only [lerp, interpolationFactor]
  rcases le_total a b with h | h
  · rw [min_eq_left h, max_eq_right h]
    constructor <;> nlinarith
  · rw [min_eq_right h, max_eq_left h]
    constructor <;> nlinarith

/-- C9: one interpolation step of the message handler on an existing
remote entity with a stationary target strictly decreases the squared
distance of the current position to the target and keeps each coordinate
between its old value and the target coordinate (no overshoot). -/
theorem c9_interpolation_monotone_no_overshoot (st : NetworkManagerState) (i : ℕ)
    (pos rot : Vec3) (sp : ℚ) (rp : RemotePlane)
    (hrp : lookupRemote st i = some rp) (hne : rp.position ≠ pos) :
    ∃ rp2, lookupRemote (updateRemotePlayer st i pos rot sp) i = some rp2 ∧
      rp2.position = vlerp interpolationFactor rp.position pos ∧
      dist2 rp2.position pos < dist2 rp.position pos ∧
      (min rp.position.x pos.x ≤ rp2.position.x ∧ rp2.position.x ≤ max rp.position.x pos.x) ∧
      (min rp.position.y pos.y ≤ rp2.position.y ∧ rp2.position.y ≤ max rp.position.y pos.y) ∧
      (min rp.position.z pos.z ≤ rp2.position.z ∧ rp2.position.z ≤ max rp.position.z pos.z) := by
  refine ⟨⟨vlerp interpolationFactor rp.position pos,
      vlerp interpolationFactor rp.rotation rot, sp, rp.ammo⟩, ?_, rfl, ?_, ?_, ?_, ?_⟩
  · rw [updateRemotePlayer, hrp]
    exact lookupRP_setRP_self st.remotePlanes i _ rp hrp
  · show dist2 (vlerp interpolationFactor rp.position pos) pos < dist2 rp.position pos
    rw [dist2_vlerp_interpolation]
    have hpos := dist2_pos_of_ne rp.position pos hne
    linarith
  · exact lerp_between rp.position.x pos.x
  · exact lerp_between rp.position.y pos.y
  · exact lerp_between rp.position.z pos.z

/-- C9 witness: an entity at the origin with target (10,0,0) moves to a
point strictly closer to the target without overshooting. -/
theorem c9_interpolation_monotone_no_overshoot_witness :
    ∃ rp2, lookupRemote
        (updateRemotePlayer ⟨some 1, [(3, ⟨⟨0, 0, 0⟩, ⟨0, 0, 0⟩, 0, none⟩)]⟩
          3 ⟨10, 0, 0⟩ ⟨0, 0, 0⟩ 2) 3 = some rp2 ∧
      rp2.position = vlerp interpolationFactor ⟨0, 0, 0⟩ ⟨10, 0, 0⟩ ∧
      dist2 rp2.position ⟨10, 0, 0⟩ < dist2 (⟨0, 0, 0⟩ : Vec3) ⟨10, 0, 0⟩ ∧
      (min (0 : ℚ) 10 ≤ rp2.position.x ∧ rp2.position.x ≤ max (0 : ℚ) 10) ∧
      (min (0 : ℚ) 0 ≤ rp2.position.y ∧ rp2.position.y ≤ max (0 : ℚ) 0) ∧
      (min (0 : ℚ) 0 ≤ rp2.position.z ∧ rp2.position.z ≤ max (0 : ℚ) 0) :=
  c9_interpolation_monotone_no_overshoot
    ⟨some 1, [(3, ⟨⟨0, 0, 0⟩, ⟨0, 0, 0⟩, 0, none⟩)]⟩ 3 ⟨10, 0, 0⟩ ⟨0, 0, 0⟩ 2
    ⟨⟨0, 0, 0⟩, ⟨0, 0, 0⟩, 0, none⟩ rfl (by decide)

theorem firstInactiveIdx_spec : ∀ (pool : List Bullet) (i : ℕ),
    firstInactiveIdx pool = some i → ∃ b, pool[i]? = some b ∧ b.active = false := by
  intro pool
  induction pool with
  | nil => intro i h; simp [firstInactiveIdx] at h
  | cons b bs ih =>
    intro i h
    rw [firstInactiveIdx] at h
    cases hb : b.active with
    | true =>
      rw [hb, if_pos rfl] at h
      cases hfi : firstInactiveIdx bs with
      | none => rw [hfi] at h; simp at h
      | some j =>
        rw [hfi] at h
        simp only [Option.map] at h
        have hj : j + 1 = i := by simpa using h
        subst hj
        obtain ⟨b2, hb2, hact⟩ := ih j hfi
        exact ⟨b2, by simpa using hb2, hact⟩
    | false =>
      rw [hb, if_neg (by simp)] at h
      have h0 : i = 0 := by simpa using h.symm
      subst h0
      exact ⟨b, by simp, hb⟩

theorem firstInactiveIdx_eq_none : ∀ pool : List Bullet,
    firstInactiveIdx pool = none ↔ ∀ b ∈ pool, b.active = true := by
  intro pool
  induction pool with
  | nil => simp [firstInactiveIdx]
  | cons b bs ih =>
    rw [firstInactiveIdx]
    cases hb : b.active with
    | true =>
      rw [if_pos rfl]
      constructor
      · intro h
        have hnone : firstInactiveIdx bs = none := by
          cases hfi : firstInactiveIdx bs with
          | none => rfl
          | some j => rw [hfi] at h; simp at h
        intro b2 hb2
        rcases List.mem_cons.mp hb2 with rfl | h2
        · exact hb
        · exact (ih.mp hnone) b2 h2
      · intro h
        have : firstInactiveIdx bs = none :=
          ih.mpr (fun b2 h2 => h b2 (List.mem_cons_of_mem _ h2))
        rw [this]
        rfl
    | false =>
      rw [if_neg (by simp)]
      constructor
      · intro h; simp at h
      · intro h
        exact absurd (h b (List.mem_cons_self b bs)) (by simp [hb])

theorem filter_active_set_length : ∀ (pool : List Bullet) (i : ℕ) (b0 b : Bullet),
    pool[i]? = some b0 → b0.active = false → b.active = true →
    ((pool.set i b).filter (fun x => x.active)).length
      = (pool.filter (fun x => x.active)).length + 1 := by
  intro pool
  induction pool with
  | nil => intro i b0 b h _ _; simp at h
  | cons p ps ih =>
    intro i b0 b h h0 hb
    cases i with
    | zero =>
      simp only [List.getElem?_cons_zero, Option.some.injEq] at h
      subst h
      rw [List.set_cons_zero, List.filter_cons, List.filter_cons,
        if_pos hb, if_neg (by simp [h0])]
      simp
    | succ n =>
      simp only [List.getElem?_cons_succ] at h
      rw [List.set_cons_succ, List.filter_cons, List.filter_cons]
      by_cases hp : p.active
      · rw [if_pos hp, if_pos hp]
        simp only [List.length_cons]
        rw [ih n b0 b h h0 hb]
      · rw [if_neg hp, if_neg hp]
        exact ih n b0 b h h0 hb

theorem exists_inactive_of_count_lt : ∀ pool : List Bullet,
    (pool.filter (fun x => x.active)).length < pool.length →
    ∃ i, firstInactiveIdx pool = some i := by
  intro pool
  induction pool with
  | nil => intro h; simp at h
  | cons p ps ih =>
    intro h
    cases hp : p.active with
    | false =>
      refine ⟨0, ?_⟩
      rw [firstInactiveIdx, hp, if_neg (by simp)]
    | true =>
      rw [List.filter_cons, if_pos hp, List.length_cons, List.length_cons] at h
      obtain ⟨j, hj⟩ := ih (by omega)
      refine ⟨j + 1, ?_⟩
      rw [firstInactiveIdx, hp, if_pos rfl, hj]
      rfl

theorem createBullet_full (a : AmmoSystem) (now : ℚ) (p d v : Vec3)
    (h : ∀ b ∈ a.bulletPool, b.active = true) :
    createBullet a now p d v = a := by
  unfold createBullet
  rw [(firstInactiveIdx_eq_none a.bulletPool).mpr h]

theorem createBullet_found (a : AmmoSystem) (now : ℚ) (p d v : Vec3) (i : ℕ)
    (h : firstInactiveIdx a.bulletPool = some i) :
    createBullet a now p d v
      = { a with
          bulletPool := a.bulletPool.set i
            ⟨true, now, p, vadd (vscale a.bulletSpeed d) v⟩
          bullets := a.bullets ++ [i] } := by
  unfold createBullet
  rw [h]

theorem activeBulletCount_createBullet (a : AmmoSystem) (now : ℚ) (p d v : Vec3)
    (i : ℕ) (h : firstInactiveIdx a.bulletPool = some i) :
    activeBulletCount (createBullet a now p d v) = activeBulletCount a + 1 := by
  obtain ⟨b0, hb0, hact⟩ := firstInactiveIdx_spec a.bulletPool i h
  rw [createBullet_found a now p d v i h]
  exact filter_active_set_length a.bulletPool i b0 _ hb0 hact rfl

theorem createBullet_pool_length (a : AmmoSystem) (now : ℚ) (p d v : Vec3) :
    (createBullet a now p d v).bulletPool.length = a.bulletPool.length := by
  unfold createBullet
  cases hfi : firstInactiveIdx a.bulletPool with
  | none => rfl
  | some i => simp

theorem createBullet_fields (a : AmmoSystem) (now : ℚ) (p d v : Vec3) :
    (createBullet a now p d v).lastFireTime = a.lastFireTime ∧
    (createBullet a now p d v).fireCooldown = a.fireCooldown := by
  unfold createBullet
  cases hfi : firstInactiveIdx a.bulletPool with
  | none => exact ⟨rfl, rfl⟩
  | some i => exact ⟨rfl, rfl⟩

theorem fireBullets_eq_fireBulletsWithoutSound :
    fireBullets = fireBulletsWithoutSound := rfl

theorem fireBulletsWithoutSound_cooldown (a : AmmoSystem) (now : ℚ)
    (lw rw2 bd pv : Vec3) (h : now - a.lastFireTime < a.fireCooldown) :
    fireBulletsWithoutSound a now lw rw2 bd pv = a := by
  unfold fireBulletsWithoutSound
  rw [if_pos h]

theorem fireBulletsWithoutSound_ready (a : AmmoSystem) (now : ℚ)
    (lw rw2 bd pv : Vec3) (h : ¬ (now - a.lastFireTime < a.fireCooldown)) :
    fireBulletsWithoutSound a now lw rw2 bd pv
      = createBullet (createBullet { a with lastFireTime := now } now lw bd pv)
          now rw2 bd pv := by
  unfold fireBulletsWithoutSound
  rw [if_neg h]

theorem filter_active_replicate_inactive (n : ℕ) :
    (List.replicate n inactiveBullet).filter (fun b => b.active) = [] := by
  induction n with
  | zero => rfl
  | succ k ih =>
    rw [List.replicate_succ, List.filter_cons, if_neg (by simp [inactiveBullet])]
    exact ih

theorem firstInactiveIdx_replicate (n : ℕ) (h : 0 < n) :
    firstInactiveIdx (List.replicate n inactiveBullet) = some 0 := by
  cases n with
  | zero => omega
  | succ k =>
    rw [List.replicate_succ, firstInactiveIdx, if_neg (by simp [inactiveBullet])]

theorem activeBulletCount_fire_pair (a : AmmoSystem) (now : ℚ)
    (lw rw2 bd pv : Vec3) (hready : ¬ (now - a.lastFireTime < a.fireCooldown))
    (hroom : activeBulletCount a + 2 ≤ a.bulletPool.length) :
    activeBulletCount (fireBulletsWithoutSound a now lw rw2 bd pv)
        = activeBulletCount a + 2 ∧
    (fireBulletsWithoutSound a now lw rw2 bd pv).lastFireTime = now ∧
    (fireBulletsWithoutSound a now lw rw2 bd pv).fireCooldown = a.fireCooldown := by
  rw [fireBulletsWithoutSound_ready a now lw rw2 bd pv hready]
  have ha1cnt : activeBulletCount { a with lastFireTime := now } = activeBulletCount a := rfl
  have ha1len : ({ a with lastFireTime := now } : AmmoSystem).bulletPool.length
      = a.bulletPool.length := rfl
  have hlt1 : activeBulletCount { a with lastFireTime := now }
      < ({ a with lastFireTime := now } : AmmoSystem).bulletPool.length := by
    rw [ha1cnt, ha1len]; omega
  obtain ⟨i, hi⟩ := exists_inactive_of_count_lt _ hlt1
  have hcnt1 : activeBulletCount (createBullet { a with lastFireTime := now } now lw bd pv)
      = activeBulletCount a + 1 := by
    rw [activeBulletCount_createBullet _ now lw bd pv i hi, ha1cnt]
  have hlen1 : (createBullet { a with lastFireTime := now } now lw bd pv).bulletPool.length
      = a.bulletPool.length := by
    rw [createBullet_pool_length]
  have hlt2 : activeBulletCount (createBullet { a with lastFireTime := now } now lw bd pv)
      < (createBullet { a with lastFireTime := now } now lw bd pv).bulletPool.length := by
    rw [hcnt1, hlen1]; omega
  obtain ⟨j, hj⟩ := exists_inactive_of_count_lt _ hlt2
  refine ⟨?_, ?_, ?_⟩
  · rw [activeBulletCount_createBullet _ now rw2 bd pv j hj, hcnt1]
  · rw [(createBullet_fields _ now rw2 bd pv).1, (createBullet_fields _ now lw bd pv).1]
  · rw [(createBullet_fields _ now rw2 bd pv).2, (createBullet_fields _ now lw bd pv).2]

/-- C8: a fire call (local fireBullets or the remote path
fireBulletsWithoutSound) arriving before the cooldown has elapsed is a
no-op leaving the whole AmmoSystem state, including the last-fire
timestamp, unchanged; and two fire calls 10 ms apart on a fresh system
with its 80 ms cooldown spawn exactly one bullet pair. -/
theorem c8_fire_cooldown_gate :
    (∀ (a : AmmoSystem) (now : ℚ) (lw rw2 bd pv : Vec3),
        now - a.lastFireTime < a.fireCooldown →
          fireBullets a now lw rw2 bd pv = a ∧
          fireBulletsWithoutSound a now lw rw2 bd pv = a) ∧
    activeBulletCount
        (fireBulletsWithoutSound
          (fireBulletsWithoutSound freshAmmoSystem 1000
            ⟨0, 0, 0⟩ ⟨0, 0, 0⟩ ⟨0, 0, 1⟩ ⟨0, 0, 0⟩)
          1010 ⟨0, 0, 0⟩ ⟨0, 0, 0⟩ ⟨0, 0, 1⟩ ⟨0, 0, 0⟩) = 2 := by
  constructor
  · intro a now lw rw2 bd pv h
    rw [fireBullets_eq_fireBulletsWithoutSound]
    exact ⟨fireBulletsWithoutSound_cooldown a now lw rw2 bd pv h,
      fireBulletsWithoutSound_cooldown a now lw rw2 bd pv h⟩
  · have hc0 : activeBulletCount freshAmmoSystem = 0 := by
      show ((List.replicate 200 inactiveBullet).filter (fun b => b.active)).length = 0
      rw [filter_active_replicate_inactive]
      rfl
    have hl0 : freshAmmoSystem.bulletPool.length = 200 := by
      show (List.replicate 200 inactiveBullet).length = 200
      rw [List.length_replicate]
    have step1 := activeBulletCount_fire_pair freshAmmoSystem 1000
      ⟨0, 0, 0⟩ ⟨0, 0, 0⟩ ⟨0, 0, 1⟩ ⟨0, 0, 0⟩
      (by show ¬ ((1000 : ℚ) - 0 < 80); norm_num)
      (by rw [hc0, hl0]; omega)
    have hcool2 : (1010 : ℚ) -
        (fireBulletsWithoutSound freshAmmoSystem 1000
          ⟨0, 0, 0⟩ ⟨0, 0, 0⟩ ⟨0, 0, 1⟩ ⟨0, 0, 0⟩).lastFireTime
        < (fireBulletsWithoutSound freshAmmoSystem 1000
          ⟨0, 0, 0⟩ ⟨0, 0, 0⟩ ⟨0, 0, 1⟩ ⟨0, 0, 0⟩).fireCooldown := by
      rw [step1.2.1, step1.2.2]
      show (1010 : ℚ) - 1000 < 80
      norm_num
    rw [fireBulletsWithoutSound_cooldown _ 1010 _ _ _ _ hcool2, step1.1, hc0]

/-- C8 witness: a fire call 10 ms after the epoch on a fresh system with
last-fire time 0 and cooldown 80 leaves the system unchanged. -/
theorem c8_fire_cooldown_gate_witness :
    fireBullets freshAmmoSystem 10 ⟨0, 0, 0⟩ ⟨0, 0, 0⟩ ⟨0, 0, 1⟩ ⟨0, 0, 0⟩
        = freshAmmoSystem ∧
    fireBulletsWithoutSound freshAmmoSystem 10 ⟨0, 0, 0⟩ ⟨0, 0, 0⟩ ⟨0, 0, 1⟩ ⟨0, 0, 0⟩
        = freshAmmoSystem :=
  c8_fire_cooldown_gate.1 freshAmmoSystem 10 ⟨0, 0, 0⟩ ⟨0, 0, 0⟩ ⟨0, 0, 1⟩ ⟨0, 0, 0⟩
    (by show (10 : ℚ) - 0 < 80; norm_num)

theorem mapWithIndexFrom_length : ∀ (l : List α) (k : ℕ) (f : ℕ → α → β),
    (mapWithIndexFrom f k l).length = l.length := by
  intro l
  induction l with
  | nil => intro k f; rfl
  | cons a as ih =>
    intro k f
    rw [mapWithIndexFrom, List.length_cons, List.length_cons, ih (k + 1) f]

theorem mapWithIndex_length (f : ℕ → α → β) (l : List α) :
    (mapWithIndex f l).length = l.length :=
  mapWithIndexFrom_length l 0 f

theorem mapWithIndexFrom_getElem? : ∀ (l : List α) (k i : ℕ) (f : ℕ → α → β),
    (mapWithIndexFrom f k l)[i]? = (l[i]?).map (f (k + i)) := by
  intro l
  induction l with
  | nil => intro k i f; simp [mapWithIndexFrom]
  | cons a as ih =>
    intro k i f
    cases i with
    | zero => simp [mapWithIndexFrom]
    | succ n =>
      show (f k a :: mapWithIndexFrom f (k + 1) as)[n + 1]?
          = ((a :: as)[n + 1]?).map (f (k + (n + 1)))
      rw [List.getElem?_cons_succ, List.getElem?_cons_succ, ih (k + 1) n f,
        show k + 1 + n = k + (n + 1) from by omega]

theorem mapWithIndex_getElem? (f : ℕ → α → β) (l : List α) (i : ℕ) :
    (mapWithIndex f l)[i]? = (l[i]?).map (f i) := by
  rw [mapWithIndex, mapWithIndexFrom_getElem? l 0 i f, Nat.zero_add]

theorem moveActive_creationTime (bl : List ℕ) (dt : ℚ) (i : ℕ) (b : Bullet) :
    (moveActive bl dt i b).creationTime = b.creationTime := by
  unfold moveActive
  split <;> rfl

/-- C10: the number of active bullets never exceeds the pool size; the
constructor pool size is the fixed capacity 200 and neither spawning nor
updating grows the pool; a spawn request against a fully active pool is
refused with no state change; and a bullet older than the fixed lifetime
is deactivated by update and dropped from the active list, returning its
slot to the pool. -/
theorem c10_pool_bounded :
    (∀ a : AmmoSystem, activeBulletCount a ≤ a.bulletPool.length) ∧
    freshAmmoSystem.bulletPool.length = 200 ∧
    (∀ (a : AmmoSystem) (now : ℚ) (p d v : Vec3),
        (createBullet a now p d v).bulletPool.length = a.bulletPool.length) ∧
    (∀ (a : AmmoSystem) (now dt : ℚ),
        (ammoUpdate a now dt).bulletPool.length = a.bulletPool.length) ∧
    (∀ (a : AmmoSystem) (now : ℚ) (p d v : Vec3),
        (∀ b ∈ a.bulletPool, b.active = true) → createBullet a now p d v = a) ∧
    (∀ (a : AmmoSystem) (now dt : ℚ) (i : ℕ) (b0 : Bullet),
        a.bulletPool[i]? = some b0 → a.bullets.contains i = true →
        now - b0.creationTime > a.bulletLifetime →
          (∃ b2, (ammoUpdate a now dt).bulletPool[i]? = some b2 ∧ b2.active = false) ∧
          i ∉ (ammoUpdate a now dt).bullets) := by
  refine ⟨?_, ?_, ?_, ?_, ?_, ?_⟩
  · intro a
    exact List.length_filter_le _ _
  · show (List.replicate 200 inactiveBullet).length = 200
    rw [List.length_replicate]
  · exact createBullet_pool_length
  · intro a now dt
    show (mapWithIndex _ (mapWithIndex (moveActive a.bullets dt) a.bulletPool)).length = _
    rw [mapWithIndex_length, mapWithIndex_length]
  · intro a now p d v h
    exact createBullet_full a now p d v h
  · intro a now dt i b0 hb0 hcont hexp
    have hmv : (mapWithIndex (moveActive a.bullets dt) a.bulletPool)[i]?
        = some (moveActive a.bullets dt i b0) := by
      rw [mapWithIndex_getElem?, hb0]
      rfl
    have hexpT : expiredAt a.bulletLifetime now
        (mapWithIndex (moveActive a.bullets dt) a.bulletPool) i = true := by
      rw [expiredAt, hmv]
      show decide (now - (moveActive a.bullets dt i b0).creationTime > a.bulletLifetime) = true
      rw [moveActive_creationTime]
      exact decide_eq_true hexp
    constructor
    · refine ⟨{ moveActive a.bullets dt i b0 with active := false }, ?_, rfl⟩
      show (mapWithIndex _ (mapWithIndex (moveActive a.bullets dt) a.bulletPool))[i]? = _
      rw [mapWithIndex_getElem?, hmv]
      show some (if a.bullets.contains i && expiredAt a.bulletLifetime now
          (mapWithIndex (moveActive a.bullets dt) a.bulletPool) i then _ else _) = _
      rw [hcont, hexpT]
      rfl
    · intro hmem2
      have hm2 : i ∈ a.bullets.filter (fun j =>
          !(expiredAt a.bulletLifetime now
            (mapWithIndex (moveActive a.bullets dt) a.bulletPool) j)) := hmem2
      rw [List.mem_filter] at hm2
      have := hm2.2
      rw [hexpT] at this
      simp at this

/-- C10 witness: a one-slot fully active pool refuses a spawn
unchanged, and a bullet created at time 0 is deactivated and delisted by
an update at time 3000 under the 2000 ms lifetime. -/
theorem c10_pool_bounded_witness :
    createBullet ⟨1000, 2000, 80, 0, 1, [⟨true, 0, ⟨0, 0, 0⟩, ⟨0, 0, 0⟩⟩], [0]⟩ 5
        ⟨0, 0, 0⟩ ⟨0, 0, 1⟩ ⟨0, 0, 0⟩
      = ⟨1000, 2000, 80, 0, 1, [⟨true, 0, ⟨0, 0, 0⟩, ⟨0, 0, 0⟩⟩], [0]⟩ ∧
    ((∃ b2, (ammoUpdate ⟨1000, 2000, 80, 0, 1, [⟨true, 0, ⟨0, 0, 0⟩, ⟨0, 0, 0⟩⟩], [0]⟩
          3000 1).bulletPool[0]? = some b2 ∧ b2.active = false) ∧
      0 ∉ (ammoUpdate ⟨1000, 2000, 80, 0, 1, [⟨true, 0, ⟨0, 0, 0⟩, ⟨0, 0, 0⟩⟩], [0]⟩
          3000 1).bullets) :=
  ⟨c10_pool_bounded.2.2.2.2.1 ⟨1000, 2000, 80, 0, 1, [⟨true, 0, ⟨0, 0, 0⟩, ⟨0, 0, 0⟩⟩], [0]⟩
      5 ⟨0, 0, 0⟩ ⟨0, 0, 1⟩ ⟨0, 0, 0⟩ (by decide),
    c10_pool_bounded.2.2.2.2.2 ⟨1000, 2000, 80, 0, 1, [⟨true, 0, ⟨0, 0, 0⟩, ⟨0, 0, 0⟩⟩], [0]⟩
      3000 1 0 ⟨true, 0, ⟨0, 0, 0⟩, ⟨0, 0, 0⟩⟩ rfl (by decide)
      (by show (3000 : ℚ) - 0 > 2000; norm_num)⟩

end Plane
